import Mathlib

/-!
Verification of the network-interface and load-balancer backend-address-pool
association resources of the terraform-provider-azurestack repository.

The Go source under internal/services/network is embedded shallowly:
pointers become `Option`, slices become `List`, fallible handlers return
`Except CrudError`, and remote calls plus name-based locking are recorded as
explicit event traces.  Functions that live in parts of the repository that
are not among the reviewed sources (the `locks` package, the `parse`
packages, `FindNetworkInterfaceIPConfiguration`,
`updateNetworkInterfaceIPConfiguration`, `parseFieldsFromNetworkInterface`,
`mapFieldsToNetworkInterface`, `determineResourcesToLockFromIPConfiguration`,
`location.Normalize`) are modelled from the specification, either as
explicitly marked definitions or as opaque fields of an `Env` record of
external dependencies.
-/

namespace AzureStackNetwork

/-- A load-balancer backend address pool reference; in the Go SDK the `ID`
field is a nullable string pointer. -/
structure BackendAddressPool where
  ID : Option String
  deriving Repr, DecidableEq

/-- A subnet reference (`network.Subnet`); only the `ID` field is used by the
embedded code. -/
structure Subnet where
  ID : Option String
  deriving Repr, DecidableEq

/-- A public IP address reference (`network.PublicIPAddress`); only the `ID`
field is used by the embedded code. -/
structure PublicIPAddress where
  ID : Option String
  deriving Repr, DecidableEq

/-- A network security group reference; only its identity matters to the
embedded code, which copies the whole pointer. -/
structure NetworkSecurityGroup where
  ID : Option String
  deriving Repr, DecidableEq

/-- `network.InterfaceIPConfigurationPropertiesFormat`, restricted to the
fields the reviewed sources read or write. -/
structure InterfaceIPConfigurationPropertiesFormat where
  LoadBalancerBackendAddressPools : Option (List BackendAddressPool)
  Subnet : Option Subnet
  PrivateIPAddress : Option String
  PrivateIPAddressVersion : String
  PrivateIPAllocationMethod : String
  PublicIPAddress : Option PublicIPAddress
  Primary : Option Bool
  deriving Repr, DecidableEq

/-- `network.InterfaceIPConfiguration`: a name plus a nullable pointer to the
properties format. -/
structure InterfaceIPConfiguration where
  Name : Option String
  props : Option InterfaceIPConfigurationPropertiesFormat
  deriving Repr, DecidableEq

/-- `network.InterfaceDNSSettings`, restricted to the `DNSServers` field (the
only one the mutating handlers touch). -/
structure InterfaceDNSSettings where
  DNSServers : Option (List String)
  deriving Repr, DecidableEq

/-- `network.InterfacePropertiesFormat`, restricted to the fields the
mutating handlers read or write. -/
structure InterfacePropertiesFormat where
  IPConfigurations : Option (List InterfaceIPConfiguration)
  DNSSettings : Option InterfaceDNSSettings
  EnableIPForwarding : Option Bool
  NetworkSecurityGroup : Option NetworkSecurityGroup
  deriving Repr, DecidableEq

/-- `network.Interface`: tags are modelled as an association list. -/
structure Interface where
  Name : Option String
  Location : Option String
  props : Option InterfacePropertiesFormat
  Tags : List (String × String)
  deriving Repr, DecidableEq

/-- The components of a parsed network interface resource ID
(`parse.NetworkInterfaceId`). -/
structure NetworkInterfaceId where
  ResourceGroup : String
  Name : String
  deriving Repr, DecidableEq

/-- The components of a parsed network interface IP configuration resource ID
(`parse.NetworkInterfaceIpConfigurationId`). -/
structure NetworkInterfaceIpConfigurationId where
  ResourceGroup : String
  NetworkInterfaceName : String
  IpConfigurationName : String
  deriving Repr, DecidableEq

/-- The distinct error outcomes of the embedded handlers.  Messages are
abstracted to constructors; `importAsExists` keeps the resource label and the
computed resource ID because claim C4 is about that error.  The two `panic`
constructors stand for Go runtime panics (out-of-range slice index and nil
pointer dereference), which the Go code does not return as values but which a
shallow embedding must make explicit. -/
inductive CrudError where
  | invalidId
  | notFound
  | retrieveError
  | nilProperties
  | nilIPConfigurations
  | ipConfigNotFound
  | nilIPConfigProperties
  | importAsExists (resourceType : String) (resourceId : String)
  | createOrUpdateError
  | deleteError
  | malformedAssociationId
  | subnetRequiredForIPv4
  | primaryRequired
  | lockDetailsError
  | panicIndexOutOfRange
  | panicNilDeref
  deriving Repr, DecidableEq

/-- Modelled from the spec: the per-resource-type lock key constant
`networkInterfaceResourceName` is defined elsewhere in the repository; the
claims only require that every handler uses one and the same constant. -/
def networkInterfaceResourceName : String := "azurestack_network_interface"

/-- The resource label used by the association resource when raising
`tf.ImportAsExistsError` (source line 130). -/
def assocImportLabel : String := "azurerm_network_interface_backend_address_pool_association"

/-- The resource label used by `networkInterfaceCreate` when raising
`tf.ImportAsExistsError` (source line 190). -/
def nicImportLabel : String := "azurestack_network_interface"

/-- `expandNetworkInterfaceDnsServers` (source lines 600-606): appends each
entry of the raw list in order. -/
def expandNetworkInterfaceDnsServers (input : List String) : List String :=
  input.foldl (fun dnsServers v => dnsServers ++ [v]) []

/-- `flattenNetworkInterfaceDnsServers` (source lines 608-614): a nil pointer
becomes the empty list, otherwise the pointed-to list is returned. -/
def flattenNetworkInterfaceDnsServers (input : Option (List String)) : List String :=
  match input with
  | none => []
  | some l => l

/-- References to the CRUD handler functions, used to state which handlers a
declarative resource definition registers. -/
inductive HandlerRef where
  | assocCreateUpdateHandler
  | assocReadHandler
  | assocDeleteHandler
  | nicCreateHandler
  | nicReadHandler
  | nicUpdateHandler
  | nicDeleteHandler
  deriving Repr, DecidableEq

/-- The CRUD-handler part of a `pluginsdk.Resource` definition (schema,
timeouts and importer are modelled separately where a claim needs them). -/
structure ResourceDefinition where
  Create : Option HandlerRef
  Read : Option HandlerRef
  Update : Option HandlerRef
  Delete : Option HandlerRef
  deriving Repr, DecidableEq

/-- The handler registrations of `loadBalancerBackendAddressPoolAssociation`
(source lines 24-28): Create, Read and Delete only; no Update handler is set
(every schema field is ForceNew). -/
def loadBalancerBackendAddressPoolAssociationDef : ResourceDefinition :=
  { Create := some HandlerRef.assocCreateUpdateHandler
    Read := some HandlerRef.assocReadHandler
    Update := none
    Delete := some HandlerRef.assocDeleteHandler }

/-- The handler registrations of `networkInterface` (source lines 27-32). -/
def networkInterfaceDef : ResourceDefinition :=
  { Create := some HandlerRef.nicCreateHandler
    Read := some HandlerRef.nicReadHandler
    Update := some HandlerRef.nicUpdateHandler
    Delete := some HandlerRef.nicDeleteHandler }

/-- The resource definitions contained in the reviewed sources. -/
def repositoryResources : List ResourceDefinition :=
  [loadBalancerBackendAddressPoolAssociationDef, networkInterfaceDef]

/-- A resource definition registers handlers for all four CRUD operations. -/
def registersAllFour (r : ResourceDefinition) : Bool :=
  r.Create.isSome && r.Read.isSome && r.Update.isSome && r.Delete.isSome

/-- Character-level embedding of Go `strings.Split` for a one-character
separator: splits the character list at every occurrence of the separator.
`strings.Split` always yields at least one part. -/
def splitOnChar (s : List Char) (sep : Char) : List (List Char) :=
  match s with
  | [] => [[]]
  | c :: rest =>
    let r := splitOnChar rest sep
    if c = sep then [] :: r
    else
      match r with
      | [] => [[c]]
      | h :: t => (c :: h) :: t

/-- Go `strings.Split(s, sep)` for the one-character separators used by the
association resource. -/
def goSplit (s : String) (sep : Char) : List String :=
  (splitOnChar s.data sep).map List.asString

/-- The outcome of `client.Get` on a network interface: found, a 404, or any
other transport error. -/
inductive GetResult where
  | ok (iface : Interface)
  | notFound
  | err
  deriving Repr

/-- Modelled from the spec: the external dependencies of the handlers whose
code is outside the reviewed sources — the ID `parse` packages, location
normalisation, `parseFieldsFromNetworkInterface` composed with
`mapFieldsToNetworkInterface` (here one function taking the expanded
configurations and the existing remote properties),
`determineResourcesToLockFromIPConfiguration`, and the Azure SDK interfaces
client.  They are opaque parameters: the claims under review do not depend on
their internals. -/
structure Env where
  parseNetworkInterfaceID : String → Except Unit NetworkInterfaceId
  parseNicIpConfigurationID : String → Except Unit NetworkInterfaceIpConfigurationId
  parseLbBackendPoolID : String → Except Unit Unit
  normalizeLocation : String → String
  mapFieldsToNetworkInterface :
    List InterfaceIPConfiguration → InterfacePropertiesFormat → List InterfaceIPConfiguration
  determineResourcesToLock : Option (List InterfaceIPConfiguration) → Except Unit Unit
  get : String → String → GetResult
  createOrUpdate : String → String → Interface → Except Unit Unit
  deleteNic : String → String → Except Unit Unit

/-- The observable remote-API and lock events of one handler execution.
`lockName`/`unlockName` are `locks.ByName`/`locks.UnlockByName`;
`lockDetails`/`unlockDetails` are the subnet/public-IP `lockingDetails`
acquired from `determineResourcesToLockFromIPConfiguration`;
`readInterface`, `writeInterface` and `deleteInterface` are the
`Get`, `CreateOrUpdate` and `Delete` calls of the interfaces client. -/
inductive RemoteEvent where
  | lockName (name resourceType : String)
  | unlockName (name resourceType : String)
  | readInterface
  | writeInterface
  | deleteInterface
  | lockDetails
  | unlockDetails
  deriving Repr, DecidableEq

/-- Modelled from the spec: `FindNetworkInterfaceIPConfiguration` (defined in
network_interface.go, which is not among the reviewed sources) returns the
first IP configuration of the list bearing the requested name, if any. -/
def FindNetworkInterfaceIPConfiguration
    (configs : Option (List InterfaceIPConfiguration)) (name : String) :
    Option InterfaceIPConfiguration :=
  match configs with
  | none => none
  | some cs => cs.find? (fun c0 => decide (c0.Name = some name))

/-- Modelled from the spec: `updateNetworkInterfaceIPConfiguration` (defined
in network_interface.go, which is not among the reviewed sources) merges the
updated IP configuration back into the list, replacing the entry bearing the
same name and leaving every other entry untouched — the read-modify-write
merge the spec describes as not clobbering fields owned by other
resources. -/
def updateNetworkInterfaceIPConfiguration
    (config : InterfaceIPConfiguration) (configs : Option (List InterfaceIPConfiguration)) :
    Option (List InterfaceIPConfiguration) :=
  match configs with
  | none => none
  | some cs => some (cs.map (fun c0 => if c0.Name = config.Name then config else c0))

/-- The loop of source lines 127-135: walks the existing pools; an entry with
a nil ID is dropped; an entry whose ID equals the requested backend address
pool ID aborts with `tf.ImportAsExistsError`; every other entry is kept in
order. -/
def collectExistingPools :
    List BackendAddressPool → String → String → Except CrudError (List BackendAddressPool)
  | [], _, _ => Except.ok []
  | existingPool :: rest, backendAddressPoolId, resourceId =>
    match existingPool.ID with
    | none => collectExistingPools rest backendAddressPoolId resourceId
    | some i =>
      if i = backendAddressPoolId then
        Except.error (CrudError.importAsExists assocImportLabel resourceId)
      else
        match collectExistingPools rest backendAddressPoolId resourceId with
        | Except.error e => Except.error e
        | Except.ok tail => Except.ok (existingPool :: tail)

/-- Source lines 101-144 of
`loadBalancerBackendAddressPoolAssociationCreateUpdate`: given the interface
returned by `Get`, validate the nested pointers, find the named IP
configuration, rebuild its pool list (existing non-nil pools other than the
requested one, in order, then the requested pool appended), and produce the
interface handed to `CreateOrUpdate`.  The Go code mutates the properties in
place through a shared pointer and then calls
`updateNetworkInterfaceIPConfiguration`; the net effect on the written
interface is the by-name replacement performed here. -/
def assocCreateUpdateCore
    (networkInterfaceId ipConfigurationName backendAddressPoolId : String)
    (read : Interface) : Except CrudError Interface :=
  match read.props with
  | none => Except.error CrudError.nilProperties
  | some props =>
    match props.IPConfigurations with
    | none => Except.error CrudError.nilIPConfigurations
    | some _ =>
      match FindNetworkInterfaceIPConfiguration props.IPConfigurations ipConfigurationName with
      | none => Except.error CrudError.ipConfigNotFound
      | some c =>
        match c.props with
        | none => Except.error CrudError.nilIPConfigProperties
        | some p =>
          let resourceId :=
            networkInterfaceId ++ "/ipConfigurations/" ++ ipConfigurationName
              ++ "|" ++ backendAddressPoolId
          let existing :=
            match p.LoadBalancerBackendAddressPools with
            | none => []
            | some l => l
          match collectExistingPools existing backendAddressPoolId resourceId with
          | Except.error e => Except.error e
          | Except.ok pools0 =>
            let pools := pools0 ++ [{ ID := some backendAddressPoolId }]
            let newConfig : InterfaceIPConfiguration :=
              { c with props := some { p with LoadBalancerBackendAddressPools := some pools } }
            Except.ok { read with props := some { props with
              IPConfigurations :=
                updateNetworkInterfaceIPConfiguration newConfig props.IPConfigurations } }

/-- Source lines 264-298 of
`loadBalancerBackendAddressPoolAssociationDelete`: given the interface
returned by `Get`, validate the nested pointers, find the named IP
configuration, keep every pool whose non-nil ID differs from the
association's backend address pool ID (dropping nil-ID entries), and produce
the interface handed to `CreateOrUpdate`. -/
def assocDeleteCore
    (ipConfigurationName backendAddressPoolId : String)
    (read : Interface) : Except CrudError Interface :=
  match read.props with
  | none => Except.error CrudError.nilProperties
  | some nicProps =>
    match nicProps.IPConfigurations with
    | none => Except.error CrudError.nilIPConfigurations
    | some _ =>
      match FindNetworkInterfaceIPConfiguration nicProps.IPConfigurations ipConfigurationName with
      | none => Except.error CrudError.ipConfigNotFound
      | some config =>
        match config.props with
        | none => Except.error CrudError.nilIPConfigProperties
        | some props =>
          let backendAddressPools :=
            match props.LoadBalancerBackendAddressPools with
            | none => []
            | some backendPools =>
              backendPools.filter (fun pool =>
                match pool.ID with
                | none => false
                | some i => decide (i ≠ backendAddressPoolId))
          let newConfig : InterfaceIPConfiguration :=
            { config with props := some { props with
                LoadBalancerBackendAddressPools := some backendAddressPools } }
          Except.ok { read with props := some { nicProps with
            IPConfigurations :=
              updateNetworkInterfaceIPConfiguration newConfig nicProps.IPConfigurations } }

/-- The IP version constant `network.IPv4`. -/
def IPv4 : String := "IPv4"

/-- One raw `ip_configuration` block as delivered by the Terraform schema
(source lines 486-523 read these keys).  The `primary` key is looked up with
an ok-check in Go, hence the `Option`. -/
structure IPConfigurationInput where
  name : String
  subnet_id : String
  private_ip_address : String
  private_ip_address_version : String
  private_ip_address_allocation : String
  public_ip_address_id : String
  primary : Option Bool
  deriving Repr, DecidableEq

/-- The loop body of `expandNetworkInterfaceIPConfigurations` (source lines
486-527) for one block, on the non-error path. -/
def expandOneIPConfiguration (data : IPConfigurationInput) : InterfaceIPConfiguration :=
  { Name := some data.name
    props := some
      { LoadBalancerBackendAddressPools := none
        Subnet := if data.subnet_id = "" then none else some { ID := some data.subnet_id }
        PrivateIPAddress :=
          if data.private_ip_address = "" then none else some data.private_ip_address
        PrivateIPAddressVersion := data.private_ip_address_version
        PrivateIPAllocationMethod := data.private_ip_address_allocation
        PublicIPAddress :=
          if data.public_ip_address_id = "" then none
          else some { ID := some data.public_ip_address_id }
        Primary := data.primary } }

/-- The loop of `expandNetworkInterfaceIPConfigurations` (source lines
486-528): aborts at the first block with version IPv4 and an empty subnet
ID, otherwise accumulates the expanded blocks in order. -/
def expandIPConfigurationsLoop :
    List IPConfigurationInput → Except CrudError (List InterfaceIPConfiguration)
  | [] => Except.ok []
  | data :: rest =>
    if data.private_ip_address_version = IPv4 ∧ data.subnet_id = "" then
      Except.error CrudError.subnetRequiredForIPv4
    else
      match expandIPConfigurationsLoop rest with
      | Except.error e => Except.error e
      | Except.ok tail => Except.ok (expandOneIPConfiguration data :: tail)

/-- The primary check of source lines 531-542: some expanded configuration
has a non-nil Primary pointer pointing at true. -/
def hasPrimaryConfig (cfgs : List InterfaceIPConfiguration) : Bool :=
  cfgs.any (fun config =>
    match config.props with
    | some p => p.Primary = some true
    | none => false)

/-- `expandNetworkInterfaceIPConfigurations` (source lines 483-546). -/
def expandNetworkInterfaceIPConfigurations
    (input : List IPConfigurationInput) : Except CrudError (List InterfaceIPConfiguration) :=
  match expandIPConfigurationsLoop input with
  | Except.error e => Except.error e
  | Except.ok ipConfigs =>
    if ipConfigs.length > 1 ∧ ¬ hasPrimaryConfig ipConfigs then
      Except.error CrudError.primaryRequired
    else Except.ok ipConfigs

/-- The import-ID validator of the association resource (source lines 30-39):
splits on the pipe and feeds parts 0 and 1 to the two ID parsing functions
with no length check.  Go evaluates `splitId[1]` only after the first parse
succeeded; when the split has fewer than two parts that access panics with an
index-out-of-range error, modelled by `CrudError.panicIndexOutOfRange`. -/
def associationImporterValidate (env : Env) (id : String) : Except CrudError Unit :=
  let splitId := goSplit id '|'
  match env.parseNicIpConfigurationID (splitId.getD 0 "") with
  | Except.error _ => Except.error CrudError.invalidId
  | Except.ok _ =>
    if h : 1 < splitId.length then
      match env.parseLbBackendPoolID (splitId.get ⟨1, h⟩) with
      | Except.error _ => Except.error CrudError.invalidId
      | Except.ok _ => Except.ok ()
    else Except.error CrudError.panicIndexOutOfRange

/-- The observable outcome of the association Read handler: the association
was found and the state fields were set, or the resource was removed from
state (`d.SetId("")`). -/
inductive AssocReadOutcome where
  | found
  | removedFromState
  deriving Repr, DecidableEq

/-- `loadBalancerBackendAddressPoolAssociationRead` (source lines 160-233)
with its trace of remote events.  The `d.Set` calls on the found path carry
no information beyond the outcome and are elided. -/
def loadBalancerBackendAddressPoolAssociationRead (env : Env) (idStr : String) :
    Except CrudError AssocReadOutcome × List RemoteEvent :=
  let splitId := goSplit idStr '|'
  if splitId.length ≠ 2 then (Except.error CrudError.malformedAssociationId, [])
  else
    match env.parseNicIpConfigurationID (splitId.getD 0 "") with
    | Except.error _ => (Except.error CrudError.invalidId, [])
    | Except.ok nicID =>
      let backendAddressPoolId := splitId.getD 1 ""
      match env.get nicID.ResourceGroup nicID.NetworkInterfaceName with
      | GetResult.notFound =>
        (Except.ok AssocReadOutcome.removedFromState, [RemoteEvent.readInterface])
      | GetResult.err => (Except.error CrudError.retrieveError, [RemoteEvent.readInterface])
      | GetResult.ok read =>
        match read.props with
        | none => (Except.error CrudError.nilProperties, [RemoteEvent.readInterface])
        | some nicProps =>
          match nicProps.IPConfigurations with
          | none => (Except.error CrudError.nilIPConfigurations, [RemoteEvent.readInterface])
          | some _ =>
            match FindNetworkInterfaceIPConfiguration nicProps.IPConfigurations
                nicID.IpConfigurationName with
            | none =>
              (Except.ok AssocReadOutcome.removedFromState, [RemoteEvent.readInterface])
            | some config =>
              let found :=
                match config.props with
                | some props =>
                  match props.LoadBalancerBackendAddressPools with
                  | some backendPools =>
                    backendPools.any (fun pool => pool.ID = some backendAddressPoolId)
                  | none => false
                | none => false
              if found then (Except.ok AssocReadOutcome.found, [RemoteEvent.readInterface])
              else
                (Except.ok AssocReadOutcome.removedFromState, [RemoteEvent.readInterface])

/-- `loadBalancerBackendAddressPoolAssociationCreateUpdate` (source lines
73-158) with its trace: parse the interface ID, take the per-name lock,
`Get`, run the core merge, `CreateOrUpdate`, tail-call the Read handler, and
release the lock (deferred, hence on every path past the lock). -/
def loadBalancerBackendAddressPoolAssociationCreateUpdate (env : Env)
    (networkInterfaceId ipConfigurationName backendAddressPoolId : String) :
    Except CrudError Unit × List RemoteEvent :=
  match env.parseNetworkInterfaceID networkInterfaceId with
  | Except.error _ => (Except.error CrudError.invalidId, [])
  | Except.ok id =>
    let body : Except CrudError Unit × List RemoteEvent :=
      match env.get id.ResourceGroup id.Name with
      | GetResult.notFound => (Except.error CrudError.notFound, [RemoteEvent.readInterface])
      | GetResult.err => (Except.error CrudError.retrieveError, [RemoteEvent.readInterface])
      | GetResult.ok read =>
        match assocCreateUpdateCore networkInterfaceId ipConfigurationName
            backendAddressPoolId read with
        | Except.error e => (Except.error e, [RemoteEvent.readInterface])
        | Except.ok newIface =>
          match env.createOrUpdate id.ResourceGroup id.Name newIface with
          | Except.error _ =>
            (Except.error CrudError.createOrUpdateError,
              [RemoteEvent.readInterface, RemoteEvent.writeInterface])
          | Except.ok _ =>
            let resourceId :=
              networkInterfaceId ++ "/ipConfigurations/" ++ ipConfigurationName
                ++ "|" ++ backendAddressPoolId
            let tail := loadBalancerBackendAddressPoolAssociationRead env resourceId
            (tail.1.map (fun _ => ()),
              [RemoteEvent.readInterface, RemoteEvent.writeInterface] ++ tail.2)
    (body.1,
      RemoteEvent.lockName id.Name networkInterfaceResourceName ::
        body.2 ++ [RemoteEvent.unlockName id.Name networkInterfaceResourceName])

/-- `loadBalancerBackendAddressPoolAssociationDelete` (source lines 235-310)
with its trace: split and parse the composite ID (length checked here,
unlike the importer), take the per-name lock, `Get`, run the core removal,
`CreateOrUpdate`, and release the lock. -/
def loadBalancerBackendAddressPoolAssociationDelete (env : Env) (idStr : String) :
    Except CrudError Unit × List RemoteEvent :=
  let splitId := goSplit idStr '|'
  if splitId.length ≠ 2 then (Except.error CrudError.malformedAssociationId, [])
  else
    match env.parseNicIpConfigurationID (splitId.getD 0 "") with
    | Except.error _ => (Except.error CrudError.invalidId, [])
    | Except.ok nicID =>
      let backendAddressPoolId := splitId.getD 1 ""
      let body : Except CrudError Unit × List RemoteEvent :=
        match env.get nicID.ResourceGroup nicID.NetworkInterfaceName with
        | GetResult.notFound => (Except.error CrudError.notFound, [RemoteEvent.readInterface])
        | GetResult.err => (Except.error CrudError.retrieveError, [RemoteEvent.readInterface])
        | GetResult.ok read =>
          match assocDeleteCore nicID.IpConfigurationName backendAddressPoolId read with
          | Except.error e => (Except.error e, [RemoteEvent.readInterface])
          | Except.ok newIface =>
            match env.createOrUpdate nicID.ResourceGroup nicID.NetworkInterfaceName newIface with
            | Except.error _ =>
              (Except.error CrudError.createOrUpdateError,
                [RemoteEvent.readInterface, RemoteEvent.writeInterface])
            | Except.ok _ =>
              (Except.ok (), [RemoteEvent.readInterface, RemoteEvent.writeInterface])
      (body.1,
        RemoteEvent.lockName nicID.NetworkInterfaceName networkInterfaceResourceName ::
          body.2 ++
            [RemoteEvent.unlockName nicID.NetworkInterfaceName networkInterfaceResourceName])

/-- Modelled from the spec: the Azure resource-manager path produced by
`parse.NewNetworkInterfaceID(...).ID()`, used only as the payload of the
import-as-exists error of `networkInterfaceCreate`. -/
def networkInterfaceIdString (subscriptionId resourceGroup name : String) : String :=
  "/subscriptions/" ++ subscriptionId ++ "/resourceGroups/" ++ resourceGroup
    ++ "/providers/Microsoft.Network/networkInterfaces/" ++ name

/-- The plan data read by `networkInterfaceCreate` (source lines 180-240).
`dnsServers` is `none` when `d.GetOk("dns_servers")` reports the key as
unset.  Tags are carried already expanded. -/
structure CreatePlan where
  name : String
  resourceGroupName : String
  location : String
  enableIpForwarding : Bool
  tags : List (String × String)
  dnsServers : Option (List String)
  ipConfiguration : List IPConfigurationInput
  deriving Repr

/-- The plan data read by `networkInterfaceUpdate` (source lines 281-332):
for each mutable field, whether `d.HasChange` reports a change, and the
planned value. -/
structure UpdatePlan where
  location : String
  hasChangeDnsServers : Bool
  dnsServers : List String
  hasChangeEnableIpForwarding : Bool
  enableIpForwarding : Bool
  hasChangeIpConfiguration : Bool
  ipConfiguration : List IPConfigurationInput
  hasChangeTags : Bool
  tags : List (String × String)
  deriving Repr

/-- `networkInterfaceRead` (source lines 348-432) with its trace.  The
handler only reads: parse the ID, `Get`, and set state fields (the
flattening of the response into state is elided, no claim concerns it). -/
def networkInterfaceRead (env : Env) (idStr : String) :
    Except CrudError Unit × List RemoteEvent :=
  match env.parseNetworkInterfaceID idStr with
  | Except.error _ => (Except.error CrudError.invalidId, [])
  | Except.ok id =>
    match env.get id.ResourceGroup id.Name with
    | GetResult.notFound => (Except.ok (), [RemoteEvent.readInterface])
    | GetResult.err => (Except.error CrudError.retrieveError, [RemoteEvent.readInterface])
    | GetResult.ok _ => (Except.ok (), [RemoteEvent.readInterface])

/-- `networkInterfaceCreate` (source lines 174-253) with its trace.  Note the
order of the source: the existence check `Get` (lines 181-192, only for a new
resource) runs BEFORE `locks.ByName` (line 202); DNS and IP-configuration
expansion, the `lockingDetails` lock, `CreateOrUpdate` and the tail call to
the Read handler all run under the per-name lock; both locks are released by
deferred unlocks.  On success the value is the interface payload handed to
`CreateOrUpdate`. -/
def networkInterfaceCreate (env : Env) (subscriptionId : String)
    (plan : CreatePlan) (isNewResource : Bool) :
    Except CrudError Interface × List RemoteEvent :=
  let id : NetworkInterfaceId :=
    { ResourceGroup := plan.resourceGroupName, Name := plan.name }
  let checkEvents := if isNewResource then [RemoteEvent.readInterface] else []
  let checkResult : Except CrudError Unit :=
    if isNewResource then
      match env.get id.ResourceGroup id.Name with
      | GetResult.err => Except.error CrudError.retrieveError
      | GetResult.ok _ =>
        Except.error (CrudError.importAsExists nicImportLabel
          (networkInterfaceIdString subscriptionId plan.resourceGroupName plan.name))
      | GetResult.notFound => Except.ok ()
    else Except.ok ()
  match checkResult with
  | Except.error e => (Except.error e, checkEvents)
  | Except.ok _ =>
    let body : Except CrudError Interface × List RemoteEvent :=
      let properties0 : InterfacePropertiesFormat :=
        { EnableIPForwarding := some plan.enableIpForwarding
          DNSSettings :=
            match plan.dnsServers with
            | none => none
            | some dnsRaw =>
              some { DNSServers := some (expandNetworkInterfaceDnsServers dnsRaw) }
          IPConfigurations := none
          NetworkSecurityGroup := none }
      match expandNetworkInterfaceIPConfigurations plan.ipConfiguration with
      | Except.error e => (Except.error e, [])
      | Except.ok ipConfigs =>
        match env.determineResourcesToLock (some ipConfigs) with
        | Except.error _ => (Except.error CrudError.lockDetailsError, [])
        | Except.ok _ =>
          let properties :=
            if ipConfigs.length > 0 then
              { properties0 with IPConfigurations := some ipConfigs }
            else properties0
          let iface : Interface :=
            { Name := some id.Name
              Location := some (env.normalizeLocation plan.location)
              props := some properties
              Tags := plan.tags }
          match env.createOrUpdate id.ResourceGroup id.Name iface with
          | Except.error _ =>
            (Except.error CrudError.createOrUpdateError,
              [RemoteEvent.lockDetails, RemoteEvent.writeInterface, RemoteEvent.unlockDetails])
          | Except.ok _ =>
            let tail := networkInterfaceRead env
              (networkInterfaceIdString subscriptionId plan.resourceGroupName plan.name)
            (Except.ok iface,
              RemoteEvent.lockDetails :: RemoteEvent.writeInterface ::
                tail.2 ++ [RemoteEvent.unlockDetails])
    (body.1,
      checkEvents ++
        RemoteEvent.lockName id.Name networkInterfaceResourceName ::
          body.2 ++ [RemoteEvent.unlockName id.Name networkInterfaceResourceName])

/-- Source lines 274-335 of `networkInterfaceUpdate`: build the update
payload from the existing remote interface and the plan.  Every unchanged
field is copied from the existing interface; the network security group is
always copied.  When DNS servers are unchanged the Go code dereferences
`existing.InterfacePropertiesFormat.DNSSettings` without a nil check, which
panics on a nil pointer (`CrudError.panicNilDeref`). -/
def networkInterfaceUpdateCore (env : Env) (idName : String)
    (plan : UpdatePlan) (existing : Interface) : Except CrudError Interface :=
  match existing.props with
  | none => Except.error CrudError.nilProperties
  | some exProps =>
    let dnsResult : Except CrudError (Option (List String)) :=
      if plan.hasChangeDnsServers then
        Except.ok (some (expandNetworkInterfaceDnsServers plan.dnsServers))
      else
        match exProps.DNSSettings with
        | none => Except.error CrudError.panicNilDeref
        | some s => Except.ok s.DNSServers
    match dnsResult with
    | Except.error e => Except.error e
    | Except.ok dnsServers =>
      let enableIPForwarding :=
        if plan.hasChangeEnableIpForwarding then some plan.enableIpForwarding
        else exProps.EnableIPForwarding
      let ipResult : Except CrudError (Option (List InterfaceIPConfiguration)) :=
        if plan.hasChangeIpConfiguration then
          match expandNetworkInterfaceIPConfigurations plan.ipConfiguration with
          | Except.error e => Except.error e
          | Except.ok ipConfigs =>
            match env.determineResourcesToLock (some ipConfigs) with
            | Except.error _ => Except.error CrudError.lockDetailsError
            | Except.ok _ =>
              Except.ok (some (env.mapFieldsToNetworkInterface ipConfigs exProps))
        else Except.ok exProps.IPConfigurations
      match ipResult with
      | Except.error e => Except.error e
      | Except.ok ipConfigurations =>
        let updTags := if plan.hasChangeTags then plan.tags else existing.Tags
        Except.ok
          { Name := some idName
            Location := some (env.normalizeLocation plan.location)
            props := some
              { IPConfigurations := ipConfigurations
                DNSSettings := some { DNSServers := dnsServers }
                EnableIPForwarding := enableIPForwarding
                NetworkSecurityGroup := exProps.NetworkSecurityGroup }
            Tags := updTags }

/-- `networkInterfaceUpdate` (source lines 255-346) with its trace: parse the
ID, take the per-name lock, `Get`, build the payload (taking the
`lockingDetails` lock when the IP configurations changed), `CreateOrUpdate`,
and release the locks. -/
def networkInterfaceUpdate (env : Env) (idStr : String) (plan : UpdatePlan) :
    Except CrudError Unit × List RemoteEvent :=
  match env.parseNetworkInterfaceID idStr with
  | Except.error _ => (Except.error CrudError.invalidId, [])
  | Except.ok id =>
    let body : Except CrudError Unit × List RemoteEvent :=
      match env.get id.ResourceGroup id.Name with
      | GetResult.notFound => (Except.error CrudError.retrieveError, [RemoteEvent.readInterface])
      | GetResult.err => (Except.error CrudError.retrieveError, [RemoteEvent.readInterface])
      | GetResult.ok existing =>
        match networkInterfaceUpdateCore env id.Name plan existing with
        | Except.error e => (Except.error e, [RemoteEvent.readInterface])
        | Except.ok upd =>
          let detailLock :=
            if plan.hasChangeIpConfiguration then [RemoteEvent.lockDetails] else []
          let detailUnlock :=
            if plan.hasChangeIpConfiguration then [RemoteEvent.unlockDetails] else []
          match env.createOrUpdate id.ResourceGroup id.Name upd with
          | Except.error _ =>
            (Except.error CrudError.createOrUpdateError,
              RemoteEvent.readInterface ::
                detailLock ++ [RemoteEvent.writeInterface] ++ detailUnlock)
          | Except.ok _ =>
            (Except.ok (),
              RemoteEvent.readInterface ::
                detailLock ++ [RemoteEvent.writeInterface] ++ detailUnlock)
    (body.1,
      RemoteEvent.lockName id.Name networkInterfaceResourceName ::
        body.2 ++ [RemoteEvent.unlockName id.Name networkInterfaceResourceName])

/-- `networkInterfaceDelete` (source lines 434-481) with its trace: parse the
ID, take the per-name lock, `Get` (a 404 merely removes the resource from
state), take the `lockingDetails` lock, `Delete`, and release the locks. -/
def networkInterfaceDelete (env : Env) (idStr : String) :
    Except CrudError Unit × List RemoteEvent :=
  match env.parseNetworkInterfaceID idStr with
  | Except.error _ => (Except.error CrudError.invalidId, [])
  | Except.ok id =>
    let body : Except CrudError Unit × List RemoteEvent :=
      match env.get id.ResourceGroup id.Name with
      | GetResult.notFound => (Except.ok (), [RemoteEvent.readInterface])
      | GetResult.err => (Except.error CrudError.retrieveError, [RemoteEvent.readInterface])
      | GetResult.ok existing =>
        match existing.props with
        | none => (Except.error CrudError.nilProperties, [RemoteEvent.readInterface])
        | some props =>
          match env.determineResourcesToLock props.IPConfigurations with
          | Except.error _ => (Except.error CrudError.lockDetailsError, [RemoteEvent.readInterface])
          | Except.ok _ =>
            match env.deleteNic id.ResourceGroup id.Name with
            | Except.error _ =>
              (Except.error CrudError.deleteError,
                [RemoteEvent.readInterface, RemoteEvent.lockDetails,
                  RemoteEvent.deleteInterface, RemoteEvent.unlockDetails])
            | Except.ok _ =>
              (Except.ok (),
                [RemoteEvent.readInterface, RemoteEvent.lockDetails,
                  RemoteEvent.deleteInterface, RemoteEvent.unlockDetails])
    (body.1,
      RemoteEvent.lockName id.Name networkInterfaceResourceName ::
        body.2 ++ [RemoteEvent.unlockName id.Name networkInterfaceResourceName])

/-- True of every event that is not a `locks.ByName`/`UnlockByName` call. -/
def nonLockEvent (e : RemoteEvent) : Bool :=
  match e with
  | RemoteEvent.lockName _ _ => false
  | RemoteEvent.unlockName _ _ => false
  | _ => true

/-- Scan of a trace for the lock discipline of a given (name, resource-type)
key: `held` counts currently held acquisitions of that key, `total` counts
all acquisitions seen.  Remote reads, writes and deletes require the key to
be held; an unlock requires it to be held; at the end the key is released
and was acquired at most once. -/
def wellLockedAux (name resourceType : String) :
    List RemoteEvent → Nat → Nat → Bool
  | [], held, total => held == 0 && decide (total ≤ 1)
  | e :: tr, held, total =>
    match e with
    | RemoteEvent.lockName n r =>
      if n = name ∧ r = resourceType then
        wellLockedAux name resourceType tr (held + 1) (total + 1)
      else wellLockedAux name resourceType tr held total
    | RemoteEvent.unlockName n r =>
      if n = name ∧ r = resourceType then
        (held != 0) && wellLockedAux name resourceType tr (held - 1) total
      else wellLockedAux name resourceType tr held total
    | RemoteEvent.readInterface =>
      (held != 0) && wellLockedAux name resourceType tr held total
    | RemoteEvent.writeInterface =>
      (held != 0) && wellLockedAux name resourceType tr held total
    | RemoteEvent.deleteInterface =>
      (held != 0) && wellLockedAux name resourceType tr held total
    | _ => wellLockedAux name resourceType tr held total

/-- A trace observes the lock discipline for the given key: every remote
read, write and delete happens while the key is held, and the key is
acquired at most once and released exactly as often as acquired. -/
def wellLocked (name resourceType : String) (tr : List RemoteEvent) : Bool :=
  wellLockedAux name resourceType tr 0 0

/-- The lock name used by handlers that parse a plain network interface ID
(the empty string on the parse-error path, which produces no events). -/
def parsedNicName (env : Env) (s : String) : String :=
  match env.parseNetworkInterfaceID s with
  | Except.ok id => id.Name
  | Except.error _ => ""

/-- The lock name used by the association Delete handler, which parses the
first pipe-separated component of its composite ID. -/
def parsedAssocDeleteNicName (env : Env) (idStr : String) : String :=
  match env.parseNicIpConfigurationID ((goSplit idStr '|').getD 0 "") with
  | Except.ok nicID => nicID.NetworkInterfaceName
  | Except.error _ => ""

/-- The effect of one association-create critical section (source lines
122-142) on a pool list, as a function of the snapshot the thread read: if
the requested pool ID is already present the handler aborts with
import-as-exists and writes nothing (the remote list is unchanged);
otherwise the existing non-nil pools are kept in order and the requested
pool is appended. -/
def applyAssociationCreate (snapshot : List BackendAddressPool) (poolId : String) :
    List BackendAddressPool :=
  match collectExistingPools snapshot poolId "" with
  | Except.error _ => snapshot
  | Except.ok pools0 => pools0 ++ [{ ID := some poolId }]

/-- The pool list contains an entry whose non-nil ID equals the given ID. -/
def containsPoolId (l : List BackendAddressPool) (poolId : String) : Bool :=
  l.any (fun pl => pl.ID = some poolId)

/-- Modelled from the spec: program counter of one association-create thread
running the `locks.ByName` critical section — before the lock, holding the
lock before the `Get`, holding the lock with the read snapshot, about to
release, and finished. -/
inductive TPC where
  | idle
  | locked
  | snap (s : List BackendAddressPool)
  | unlocking
  | finished
  deriving Repr, DecidableEq

/-- Modelled from the spec: shared state of two association-create threads
working against the same network interface name — the holder of the
per-name mutex, the remote pool list of the shared IP configuration, and
each thread's program counter. -/
structure SysState where
  lock : Option Bool
  remote : List BackendAddressPool
  pc : Bool → TPC

/-- Replace one thread's program counter. -/
def setPc (pc : Bool → TPC) (t : Bool) (v : TPC) : Bool → TPC :=
  fun j => if j = t then v else pc j

/-- Modelled from the spec: the interleaving semantics of two
association-create operations under the `locks.ByName` mutual-exclusion
scheme.  `pool t` is the backend address pool ID thread `t` associates.
Acquiring requires the mutex to be free; the read, the write and the
release require the thread to hold it; the write applies the critical
section's effect to the snapshot the thread read. -/
inductive LockStep (pool : Bool → String) : SysState → SysState → Prop where
  | acquire (t : Bool) (st : SysState) (h1 : st.pc t = TPC.idle) (h2 : st.lock = none) :
      LockStep pool st { st with lock := some t, pc := setPc st.pc t TPC.locked }
  | readRemote (t : Bool) (st : SysState) (h1 : st.pc t = TPC.locked)
      (h2 : st.lock = some t) :
      LockStep pool st { st with pc := setPc st.pc t (TPC.snap st.remote) }
  | writeRemote (t : Bool) (st : SysState) (s : List BackendAddressPool)
      (h1 : st.pc t = TPC.snap s) (h2 : st.lock = some t) :
      LockStep pool st { st with remote := applyAssociationCreate s (pool t),
                                 pc := setPc st.pc t TPC.unlocking }
  | release (t : Bool) (st : SysState) (h1 : st.pc t = TPC.unlocking)
      (h2 : st.lock = some t) :
      LockStep pool st { st with lock := none, pc := setPc st.pc t TPC.finished }

/-- Reflexive-transitive closure of `LockStep` from a fixed initial state. -/
inductive Reach (pool : Bool → String) (init : SysState) : SysState → Prop where
  | refl : Reach pool init init
  | step {st st' : SysState} : Reach pool init st → LockStep pool st st' →
      Reach pool init st'

/-- Both threads idle, mutex free, remote list arbitrary. -/
def initState (r0 : List BackendAddressPool) : SysState :=
  { lock := none, remote := r0, pc := fun _ => TPC.idle }

/-- A thread is inside the critical section. -/
def inCritical (p : TPC) : Prop :=
  p = TPC.locked ∨ (∃ s, p = TPC.snap s) ∨ p = TPC.unlocking

/-- The inductive invariant: a thread inside the critical section holds the
mutex (so at most one is inside); a thread holding a snapshot read the
current remote list (nobody else may have written since); a thread past its
write has its pool ID in the remote list. -/
def MachineInv (pool : Bool → String) (st : SysState) : Prop :=
  (∀ t, inCritical (st.pc t) → st.lock = some t)
  ∧ (∀ t s, st.pc t = TPC.snap s → s = st.remote)
  ∧ (∀ t, st.pc t = TPC.unlocking ∨ st.pc t = TPC.finished →
      containsPoolId st.remote (pool t) = true)

/-- A result is an error. -/
def isErrorResult {α : Type} (r : Except CrudError α) : Bool :=
  match r with
  | Except.error _ => true
  | Except.ok _ => false

/-- Sample pool list: one foreign pool and one nil-ID entry. -/
def samplePools : List BackendAddressPool :=
  [{ ID := some "poolOther" }, { ID := none }]

/-- Sample IP configuration properties for the configuration named cfg1. -/
def sampleIPProps : InterfaceIPConfigurationPropertiesFormat :=
  { LoadBalancerBackendAddressPools := some samplePools
    Subnet := some { ID := some "subnet1" }
    PrivateIPAddress := some "10.0.0.4"
    PrivateIPAddressVersion := "IPv4"
    PrivateIPAllocationMethod := "Dynamic"
    PublicIPAddress := none
    Primary := some true }

/-- Sample IP configuration named cfg1. -/
def sampleConfig : InterfaceIPConfiguration :=
  { Name := some "cfg1", props := some sampleIPProps }

/-- A second IP configuration named cfg2, untouched by the association
handlers in the samples. -/
def sampleOtherConfig : InterfaceIPConfiguration :=
  { Name := some "cfg2"
    props := some { sampleIPProps with LoadBalancerBackendAddressPools := none
                                       Primary := some false } }

/-- Sample interface properties. -/
def sampleNicProps : InterfacePropertiesFormat :=
  { IPConfigurations := some [sampleConfig, sampleOtherConfig]
    DNSSettings := some { DNSServers := some ["1.2.3.4"] }
    EnableIPForwarding := some false
    NetworkSecurityGroup := some { ID := some "nsg1" } }

/-- Sample network interface. -/
def sampleInterface : Interface :=
  { Name := some "nic1"
    Location := some "loc1"
    props := some sampleNicProps
    Tags := [("env", "test")] }

/-- Variant of the cfg1 properties whose pool list already contains the
pool poolB that the sample association requests. -/
def sampleIPPropsWithB : InterfaceIPConfigurationPropertiesFormat :=
  { sampleIPProps with
      LoadBalancerBackendAddressPools := some [{ ID := some "poolB" }] }

/-- Variant of cfg1 already associated with poolB. -/
def sampleConfigWithB : InterfaceIPConfiguration :=
  { Name := some "cfg1", props := some sampleIPPropsWithB }

/-- Interface properties whose cfg1 already carries poolB. -/
def sampleNicPropsWithB : InterfacePropertiesFormat :=
  { sampleNicProps with IPConfigurations := some [sampleConfigWithB, sampleOtherConfig] }

/-- Network interface whose cfg1 already carries poolB. -/
def sampleInterfaceWithB : Interface :=
  { sampleInterface with props := some sampleNicPropsWithB }

/-- A concrete environment: parsing succeeds, the remote interface is
`sampleInterfaceWithB`, and every remote call succeeds. -/
def sampleEnv : Env :=
  { parseNetworkInterfaceID := fun s => Except.ok { ResourceGroup := "rg1", Name := s }
    parseNicIpConfigurationID := fun _ =>
      Except.ok { ResourceGroup := "rg1", NetworkInterfaceName := "nic1"
                  IpConfigurationName := "cfg1" }
    parseLbBackendPoolID := fun _ => Except.ok ()
    normalizeLocation := fun s => s
    mapFieldsToNetworkInterface := fun cfgs _ => cfgs
    determineResourcesToLock := fun _ => Except.ok ()
    get := fun _ _ => GetResult.ok sampleInterfaceWithB
    createOrUpdate := fun _ _ _ => Except.ok ()
    deleteNic := fun _ _ => Except.ok () }

/-- Like `sampleEnv` but the remote interface does not exist yet. -/
def sampleEnvNotFound : Env :=
  { sampleEnv with get := fun _ _ => GetResult.notFound }

/-- A concrete valid create plan for a new network interface. -/
def samplePlanCreate : CreatePlan :=
  { name := "nic1"
    resourceGroupName := "rg1"
    location := "loc1"
    enableIpForwarding := false
    tags := [("env", "test")]
    dnsServers := some ["1.2.3.4"]
    ipConfiguration :=
      [{ name := "cfg1"
         subnet_id := "subnet1"
         private_ip_address := ""
         private_ip_address_version := "IPv4"
         private_ip_address_allocation := "Dynamic"
         public_ip_address_id := ""
         primary := some true }] }

/-- An update plan in which no field changed. -/
def samplePlanNoChange : UpdatePlan :=
  { location := "loc1"
    hasChangeDnsServers := false
    dnsServers := []
    hasChangeEnableIpForwarding := false
    enableIpForwarding := false
    hasChangeIpConfiguration := false
    ipConfiguration := []
    hasChangeTags := false
    tags := [] }

/-- Concrete pool IDs for the two-thread demonstration. -/
def demoPool : Bool → String := fun t => if t then "poolA" else "poolB"

/-- A sample raw ip_configuration block. -/
def sampleIpInput : IPConfigurationInput :=
  { name := "cfg1"
    subnet_id := "subnet1"
    private_ip_address := "10.0.0.4"
    private_ip_address_version := "IPv4"
    private_ip_address_allocation := "Static"
    public_ip_address_id := "pip1"
    primary := some true }

/-- The pool list that claim C1 describes for the create/update handler:
every pre-existing entry with a non-nil ID (by hypothesis none equals the
requested ID) in its original order, then the requested pool appended. -/
def createdPoolList (p : InterfaceIPConfigurationPropertiesFormat)
    (backendAddressPoolId : String) : List BackendAddressPool :=
  (p.LoadBalancerBackendAddressPools.getD []).filter (fun pl => pl.ID.isSome)
    ++ [{ ID := some backendAddressPoolId }]

/-- The pool list that claim C3 describes for the delete handler: the
previous list minus every entry whose ID equals the association's backend
address pool ID and minus every nil-ID entry, in the original order. -/
def deletedPoolList (p : InterfaceIPConfigurationPropertiesFormat)
    (backendAddressPoolId : String) : List BackendAddressPool :=
  (p.LoadBalancerBackendAddressPools.getD []).filter (fun pool =>
    match pool.ID with
    | none => false
    | some i => decide (i ≠ backendAddressPoolId))

/-- The written interface that claims C1 and C3 describe: identical to the
read interface except that every IP configuration bearing the updated
configuration's name carries the new pool list, and every configuration
bearing a different name is untouched. -/
def withConfigPools (iface : Interface) (props : InterfacePropertiesFormat)
    (cfgs : List InterfaceIPConfiguration) (c : InterfaceIPConfiguration)
    (p : InterfaceIPConfigurationPropertiesFormat)
    (newPools : List BackendAddressPool) : Interface :=
  { iface with
      props := some { props with
        IPConfigurations := some (cfgs.map (fun c0 =>
          if c0.Name = c.Name then
            { c with props := some { p with
                LoadBalancerBackendAddressPools := some newPools } }
          else c0)) } }

/-- The payload the no-change update plan produces from `sampleInterface`. -/
def sampleUpdatedProps : InterfacePropertiesFormat :=
  { IPConfigurations := some [sampleConfig, sampleOtherConfig]
    DNSSettings := some { DNSServers := some ["1.2.3.4"] }
    EnableIPForwarding := some false
    NetworkSecurityGroup := some { ID := some "nsg1" } }

/-- The interface payload of the no-change sample update. -/
def sampleUpdated : Interface :=
  { Name := some "nic1"
    Location := some "loc1"
    props := some sampleUpdatedProps
    Tags := [("env", "test")] }

theorem splitOnChar_ne_nil (s : List Char) (sep : Char) : splitOnChar s sep ≠ [] := by
  induction s with
  | nil => simp [splitOnChar]
  | cons c rest ih =>
    simp only [splitOnChar]
    split
    · simp
    · cases h : splitOnChar rest sep with
      | nil => exact absurd h ih
      | cons hd tl => simp [h]

theorem splitOnChar_of_not_mem (s : List Char) (sep : Char) (h : sep ∉ s) :
    splitOnChar s sep = [s] := by
  induction s with
  | nil => simp [splitOnChar]
  | cons c rest ih =>
    simp only [List.mem_cons, not_or] at h
    simp only [splitOnChar]
    rw [if_neg (fun hc => h.1 hc.symm), ih h.2]

theorem splitOnChar_length_ge_two_of_mem (s : List Char) (sep : Char) (h : sep ∈ s) :
    2 ≤ (splitOnChar s sep).length := by
  induction s with
  | nil => simp at h
  | cons c rest ih =>
    simp only [splitOnChar]
    by_cases hc : c = sep
    · rw [if_pos hc]
      have := splitOnChar_ne_nil rest sep
      have hlen : 1 ≤ (splitOnChar rest sep).length := by
        cases hs : splitOnChar rest sep with
        | nil => exact absurd hs this
        | cons a b => simp
      simp only [List.length_cons]
      omega
    · rw [if_neg hc]
      have hmem : sep ∈ rest := by
        rcases List.mem_cons.mp h with h1 | h2
        · exact absurd h1.symm hc
        · exact h2
      have h2 := ih hmem
      cases hs : splitOnChar rest sep with
      | nil => exact absurd hs (splitOnChar_ne_nil rest sep)
      | cons a b =>
        rw [hs] at h2
        simpa using h2

theorem goSplit_of_not_contains (s : String) (sep : Char) (h : sep ∉ s.data) :
    goSplit s sep = [s.data.asString] := by
  simp [goSplit, splitOnChar_of_not_mem s.data sep h]

theorem goSplit_length_ge_two_of_contains (s : String) (sep : Char) (h : sep ∈ s.data) :
    2 ≤ (goSplit s sep).length := by
  simpa [goSplit] using splitOnChar_length_ge_two_of_mem s.data sep h

theorem wellLockedAux_append_unlock (name rt : String) (body : List RemoteEvent)
    (h : ∀ e ∈ body, nonLockEvent e = true) :
    wellLockedAux name rt (body ++ [RemoteEvent.unlockName name rt]) 1 1 = true := by
  induction body with
  | nil => simp [wellLockedAux]
  | cons e tr ih =>
    have he := h e (List.mem_cons_self e tr)
    have htr := fun x hx => h x (List.mem_cons_of_mem e hx)
    cases e <;> simp [nonLockEvent] at he <;> simp [wellLockedAux, ih htr]

theorem wellLocked_sandwich (name rt : String) (body : List RemoteEvent)
    (h : ∀ e ∈ body, nonLockEvent e = true) :
    wellLocked name rt
      (RemoteEvent.lockName name rt :: body ++ [RemoteEvent.unlockName name rt]) = true := by
  have hcond : name = name ∧ rt = rt := ⟨rfl, rfl⟩
  unfold wellLocked
  simp only [wellLockedAux, if_pos hcond]
  exact wellLockedAux_append_unlock name rt body h

theorem wellLocked_nil (name rt : String) : wellLocked name rt [] = true := by
  simp [wellLocked, wellLockedAux]

theorem assocRead_trace_nonLock (env : Env) (s : String) :
    ∀ e ∈ (loadBalancerBackendAddressPoolAssociationRead env s).2, nonLockEvent e = true := by
  intro e he
  simp only [loadBalancerBackendAddressPoolAssociationRead] at he
  repeat' split at he
  all_goals (cases e <;> simp_all [nonLockEvent])

theorem networkInterfaceRead_trace_nonLock (env : Env) (s : String) :
    ∀ e ∈ (networkInterfaceRead env s).2, nonLockEvent e = true := by
  intro e he
  simp only [networkInterfaceRead] at he
  repeat' split at he
  all_goals (cases e <;> simp_all [nonLockEvent])

theorem collectExistingPools_error_iff (l : List BackendAddressPool) (p rid : String) :
    (∃ e, collectExistingPools l p rid = Except.error e) ↔ containsPoolId l p = true := by
  induction l with
  | nil => simp [collectExistingPools, containsPoolId]
  | cons hd tl ih =>
    simp only [collectExistingPools]
    cases hID : hd.ID with
    | none => simpa [containsPoolId, hID] using ih
    | some i =>
      dsimp only
      by_cases hip : i = p
      · subst hip
        simp [containsPoolId, hID]
      · rw [if_neg hip]
        cases hc : collectExistingPools tl p rid with
        | error e =>
          simp only [hc]
          constructor
          · intro _
            have : ∃ e2, collectExistingPools tl p rid = Except.error e2 := ⟨e, hc⟩
            have htl := ih.mp this
            simp [containsPoolId, hID, hip] at htl ⊢
            simpa [containsPoolId] using htl
          · intro _; exact ⟨e, rfl⟩
        | ok tail =>
          simp only [hc]
          constructor
          · rintro ⟨e, he⟩; exact absurd he (by simp)
          · intro hcont
            simp [containsPoolId, hID, hip] at hcont
            have : ∃ e, collectExistingPools tl p rid = Except.error e :=
              ih.mpr (by simpa [containsPoolId] using hcont)
            rcases this with ⟨e, he⟩
            rw [he] at hc
            exact absurd hc (by simp)

theorem collectExistingPools_ok_of_not_mem (l : List BackendAddressPool) (p rid : String)
    (h : ∀ pl ∈ l, pl.ID ≠ some p) :
    collectExistingPools l p rid = Except.ok (l.filter (fun pl => pl.ID.isSome)) := by
  induction l with
  | nil => simp [collectExistingPools]
  | cons hd tl ih =>
    have hhd := h hd (List.mem_cons_self hd tl)
    have htl := fun x hx => h x (List.mem_cons_of_mem hd hx)
    simp only [collectExistingPools]
    cases hID : hd.ID with
    | none => simp [ih htl, List.filter, hID]
    | some i =>
      dsimp only
      have hip : i ≠ p := by
        intro hc; exact hhd (by rw [hID, hc])
      rw [if_neg hip, ih htl]
      simp [List.filter, hID]

theorem containsPoolId_applyAssociationCreate_self
    (s : List BackendAddressPool) (p : String) :
    containsPoolId (applyAssociationCreate s p) p = true := by
  unfold applyAssociationCreate
  cases hc : collectExistingPools s p "" with
  | error e =>
    have : ∃ e2, collectExistingPools s p "" = Except.error e2 := ⟨e, hc⟩
    exact (collectExistingPools_error_iff s p "").mp this
  | ok pools0 =>
    simp [containsPoolId]

theorem containsPoolId_applyAssociationCreate_mono
    (s : List BackendAddressPool) (p q : String)
    (h : containsPoolId s q = true) :
    containsPoolId (applyAssociationCreate s p) q = true := by
  unfold applyAssociationCreate
  cases hc : collectExistingPools s p "" with
  | error e => exact h
  | ok pools0 =>
    by_cases hqmem : containsPoolId s p = true
    · have : ∃ e, collectExistingPools s p "" = Except.error e :=
        (collectExistingPools_error_iff s p "").mpr hqmem
      rcases this with ⟨e, he⟩
      rw [he] at hc
      exact absurd hc (by simp)
    · have hnot : ∀ pl ∈ s, pl.ID ≠ some p := by
        intro pl hpl hcontra
        exact hqmem (by simp [containsPoolId]; exact ⟨pl, hpl, by simp [hcontra]⟩)
      rw [collectExistingPools_ok_of_not_mem s p "" hnot] at hc
      cases hc
      simp only [containsPoolId, List.any_eq_true] at h ⊢
      rcases h with ⟨pl, hpl, hid⟩
      refine ⟨pl, ?_, hid⟩
      refine List.mem_append_left _ ?_
      refine List.mem_filter.mpr ⟨hpl, ?_⟩
      simp at hid
      simp [hid]

theorem machineInv_init (pool : Bool → String) (r0 : List BackendAddressPool) :
    MachineInv pool (initState r0) := by
  refine ⟨?_, ?_, ?_⟩
  · intro t ht
    simp [initState, inCritical] at ht
  · intro t s hs
    simp [initState] at hs
  · intro t ht
    simp [initState] at ht

theorem machineInv_step (pool : Bool → String) {st st' : SysState}
    (hinv : MachineInv pool st) (h : LockStep pool st st') : MachineInv pool st' := by
  rcases hinv with ⟨h1, h2, h3⟩
  cases h with
  | acquire t st hp hl =>
    refine ⟨?_, ?_, ?_⟩
    · intro j hj
      by_cases hjt : j = t
      · subst hjt; rfl
      · simp only [setPc, if_neg hjt] at hj
        have := h1 j hj
        rw [hl] at this
        exact absurd this (by simp)
    · intro j s hs
      by_cases hjt : j = t
      · subst hjt
        simp [setPc] at hs
      · simp only [setPc, if_neg hjt] at hs
        exact h2 j s hs
    · intro j hj
      by_cases hjt : j = t
      · subst hjt
        simp [setPc] at hj
      · simp only [setPc, if_neg hjt] at hj
        exact h3 j hj
  | readRemote t st hp hl =>
    refine ⟨?_, ?_, ?_⟩
    · intro j hj
      by_cases hjt : j = t
      · subst hjt; exact hl
      · simp only [setPc, if_neg hjt] at hj
        exact h1 j hj
    · intro j s hs
      by_cases hjt : j = t
      · subst hjt
        simp only [setPc, if_pos rfl] at hs
        cases hs
        rfl
      · simp only [setPc, if_neg hjt] at hs
        exact h2 j s hs
    · intro j hj
      by_cases hjt : j = t
      · subst hjt
        simp [setPc] at hj
      · simp only [setPc, if_neg hjt] at hj
        exact h3 j hj
  | writeRemote t st s hp hl =>
    have hsrem : s = st.remote := h2 t s hp
    refine ⟨?_, ?_, ?_⟩
    · intro j hj
      by_cases hjt : j = t
      · subst hjt; exact hl
      · simp only [setPc, if_neg hjt] at hj
        exact h1 j hj
    · intro j s2 hs
      by_cases hjt : j = t
      · subst hjt
        simp [setPc] at hs
      · simp only [setPc, if_neg hjt] at hs
        have hcrit : inCritical (st.pc j) := Or.inr (Or.inl ⟨s2, hs⟩)
        have := h1 j hcrit
        rw [hl] at this
        cases this
        exact absurd rfl hjt
    · intro j hj
      by_cases hjt : j = t
      · subst hjt
        exact containsPoolId_applyAssociationCreate_self _ _
      · simp only [setPc, if_neg hjt] at hj
        rcases hj with hj | hj
        · have hcrit : inCritical (st.pc j) := Or.inr (Or.inr hj)
          have := h1 j hcrit
          rw [hl] at this
          cases this
          exact absurd rfl hjt
        · have hc := h3 j (Or.inr hj)
          rw [hsrem]
          exact containsPoolId_applyAssociationCreate_mono _ _ _ hc
  | release t st hp hl =>
    refine ⟨?_, ?_, ?_⟩
    · intro j hj
      by_cases hjt : j = t
      · subst hjt
        simp only [setPc, if_pos rfl] at hj
        simp [inCritical] at hj
      · simp only [setPc, if_neg hjt] at hj
        have := h1 j hj
        rw [hl] at this
        cases this
        exact absurd rfl hjt
    · intro j s hs
      by_cases hjt : j = t
      · subst hjt
        simp [setPc] at hs
      · simp only [setPc, if_neg hjt] at hs
        exact h2 j s hs
    · intro j hj
      by_cases hjt : j = t
      · subst hjt
        exact h3 _ (Or.inl hp)
      · simp only [setPc, if_neg hjt] at hj
        exact h3 j hj

theorem machineInv_reach (pool : Bool → String) (r0 : List BackendAddressPool)
    {st : SysState} (h : Reach pool (initState r0) st) : MachineInv pool st := by
  induction h with
  | refl => exact machineInv_init pool r0
  | step hr hs ih => exact machineInv_step pool ih hs

theorem matchPools_eq_getD (o : Option (List BackendAddressPool)) :
    (match o with | none => ([] : List BackendAddressPool) | some l => l) = o.getD [] := by
  cases o <;> rfl

theorem collectExistingPools_error_of_contains (l : List BackendAddressPool) (p rid : String)
    (h : containsPoolId l p = true) :
    collectExistingPools l p rid
      = Except.error (CrudError.importAsExists assocImportLabel rid) := by
  induction l with
  | nil => simp [containsPoolId] at h
  | cons hd tl ih =>
    simp only [collectExistingPools]
    cases hID : hd.ID with
    | none =>
      apply ih
      simpa [containsPoolId, hID] using h
    | some i =>
      dsimp only
      by_cases hip : i = p
      · rw [if_pos hip]
      · rw [if_neg hip]
        have htl : containsPoolId tl p = true := by
          simp [containsPoolId, hID] at h
          rcases h with h | h
          · exact absurd h hip
          · simpa [containsPoolId] using h
        rw [ih htl]

theorem foldl_append_singleton (xs acc : List String) :
    xs.foldl (fun dnsServers v => dnsServers ++ [v]) acc = acc ++ xs := by
  induction xs generalizing acc with
  | nil => simp
  | cons x tl ih => simp [List.foldl_cons, ih]

theorem expandNetworkInterfaceDnsServers_eq_self (xs : List String) :
    expandNetworkInterfaceDnsServers xs = xs := by
  simpa using foldl_append_singleton xs []

theorem expandIPConfigurationsLoop_error_iff (input : List IPConfigurationInput) :
    isErrorResult (expandIPConfigurationsLoop input) = true ↔
      ∃ d ∈ input, d.private_ip_address_version = IPv4 ∧ d.subnet_id = "" := by
  induction input with
  | nil => simp [expandIPConfigurationsLoop, isErrorResult]
  | cons data rest ih =>
    simp only [expandIPConfigurationsLoop]
    by_cases hbad : data.private_ip_address_version = IPv4 ∧ data.subnet_id = ""
    · rw [if_pos hbad]
      simp [isErrorResult, hbad]
    · rw [if_neg hbad]
      cases hr : expandIPConfigurationsLoop rest with
      | error e =>
        rw [hr] at ih
        constructor
        · intro _
          rcases ih.mp (by simp [isErrorResult]) with ⟨d, hd, hcond⟩
          exact ⟨d, List.mem_cons_of_mem data hd, hcond⟩
        · intro _
          simp [isErrorResult]
      | ok tail =>
        rw [hr] at ih
        constructor
        · intro hcontra
          simp [isErrorResult] at hcontra
        · rintro ⟨d, hd, hcond⟩
          rcases List.mem_cons.mp hd with hd1 | hd2
          · subst hd1; exact absurd hcond hbad
          · have hfalse := ih.mpr ⟨d, hd2, hcond⟩
            simp [isErrorResult] at hfalse

theorem expandIPConfigurationsLoop_ok (input : List IPConfigurationInput)
    (h : ∀ d ∈ input, ¬ (d.private_ip_address_version = IPv4 ∧ d.subnet_id = "")) :
    expandIPConfigurationsLoop input = Except.ok (input.map expandOneIPConfiguration) := by
  induction input with
  | nil => simp [expandIPConfigurationsLoop]
  | cons data rest ih =>
    have hd := h data (List.mem_cons_self data rest)
    have htl := fun x hx => h x (List.mem_cons_of_mem data hx)
    simp only [expandIPConfigurationsLoop, if_neg hd, ih htl, List.map_cons]

theorem hasPrimaryConfig_map_expand (input : List IPConfigurationInput) :
    hasPrimaryConfig (input.map expandOneIPConfiguration)
      = input.any (fun d => d.primary = some true) := by
  induction input with
  | nil => simp [hasPrimaryConfig]
  | cons data rest ih =>
    simp only [List.map_cons, hasPrimaryConfig, List.any_cons] at ih ⊢
    rw [ih]
    rfl

/-- C10: for every list of strings, flattening a pointer to the expansion of
the list returns the list itself, and flattening a nil pointer returns the
empty list — the DNS-server expand/flatten pair is a round trip. -/
theorem claimC10_dnsServers_roundTrip :
    (∀ xs : List String,
      flattenNetworkInterfaceDnsServers (some (expandNetworkInterfaceDnsServers xs)) = xs)
    ∧ flattenNetworkInterfaceDnsServers none = [] := by
  constructor
  · intro xs
    show expandNetworkInterfaceDnsServers xs = xs
    exact expandNetworkInterfaceDnsServers_eq_self xs
  · rfl

/-- C5 counterexample: not every resource definition of the repository
registers handlers for all four CRUD operations — the association resource
registers no Update handler. -/
theorem claimC5_counterexample :
    repositoryResources.all registersAllFour = false := by decide

/-- C5 (amended): the network interface resource registers handlers for all
four CRUD operations; the backend-address-pool association resource
registers Create, Read and Delete handlers but no Update handler (all of
its schema fields are ForceNew). -/
theorem claimC5_registeredHandlers :
    registersAllFour networkInterfaceDef = true
    ∧ loadBalancerBackendAddressPoolAssociationDef.Create
        = some HandlerRef.assocCreateUpdateHandler
    ∧ loadBalancerBackendAddressPoolAssociationDef.Read = some HandlerRef.assocReadHandler
    ∧ loadBalancerBackendAddressPoolAssociationDef.Delete = some HandlerRef.assocDeleteHandler
    ∧ loadBalancerBackendAddressPoolAssociationDef.Update = none := by
  refine ⟨rfl, rfl, rfl, rfl, rfl⟩

/-- C9: `expandNetworkInterfaceIPConfigurations` returns an error exactly
when some block has private IP version IPv4 with an empty subnet ID, or
there is more than one block and none is marked primary; on success it
returns the blocks expanded in input order by `expandOneIPConfiguration`
(which carries over name, subnet, private IP address, public IP address ID,
allocation method and primary flag). -/
theorem claimC9_expandIPConfigurations (input : List IPConfigurationInput) :
    (isErrorResult (expandNetworkInterfaceIPConfigurations input) = true ↔
      ((∃ d ∈ input, d.private_ip_address_version = IPv4 ∧ d.subnet_id = "")
        ∨ (input.length > 1 ∧ ∀ d ∈ input, d.primary ≠ some true)))
    ∧ (isErrorResult (expandNetworkInterfaceIPConfigurations input) = false →
        expandNetworkInterfaceIPConfigurations input
          = Except.ok (input.map expandOneIPConfiguration)) := by
  unfold expandNetworkInterfaceIPConfigurations
  cases hr : expandIPConfigurationsLoop input with
  | error e =>
    have hloop : isErrorResult (expandIPConfigurationsLoop input) = true := by
      rw [hr]; rfl
    constructor
    · constructor
      · intro _
        exact Or.inl ((expandIPConfigurationsLoop_error_iff input).mp hloop)
      · intro _
        rfl
    · intro hcontra
      exact absurd hcontra (by simp [isErrorResult])
  | ok ipConfigs =>
    have hloop : isErrorResult (expandIPConfigurationsLoop input) = false := by
      rw [hr]; rfl
    have hnobad : ¬ ∃ d ∈ input, d.private_ip_address_version = IPv4 ∧ d.subnet_id = "" := by
      intro hc
      have := (expandIPConfigurationsLoop_error_iff input).mpr hc
      rw [hloop] at this
      exact absurd this (by simp)
    have hmap : ipConfigs = input.map expandOneIPConfiguration := by
      have h2 := expandIPConfigurationsLoop_ok input (by
        intro d hd hcond
        exact hnobad ⟨d, hd, hcond⟩)
      rw [hr] at h2
      exact (Except.ok.injEq _ _).mp h2
    subst hmap
    dsimp only
    by_cases hp : (input.map expandOneIPConfiguration).length > 1
        ∧ ¬ hasPrimaryConfig (input.map expandOneIPConfiguration)
    · rw [if_pos hp]
      constructor
      · constructor
        · intro _
          refine Or.inr ⟨?_, ?_⟩
          · have := hp.1
            simpa using this
          · intro d hd hdp
            have hhas : hasPrimaryConfig (input.map expandOneIPConfiguration) = true := by
              rw [hasPrimaryConfig_map_expand]
              simp only [List.any_eq_true]
              exact ⟨d, hd, by simp [hdp]⟩
            exact hp.2 hhas
        · intro _
          rfl
      · intro hcontra
        exact absurd hcontra (by simp [isErrorResult])
    · rw [if_neg hp]
      constructor
      · constructor
        · intro hcontra
          exact absurd hcontra (by simp [isErrorResult])
        · intro hdisj
          rcases hdisj with hbad | ⟨hlen, hnone⟩
          · exact absurd hbad hnobad
          · exfalso
            apply hp
            constructor
            · simpa using hlen
            · intro hhas
              rw [hasPrimaryConfig_map_expand] at hhas
              simp only [List.any_eq_true] at hhas
              rcases hhas with ⟨d, hd, hdp⟩
              exact hnone d hd (by simpa using hdp)
      · intro _
        rfl

/-- C9 witness: a single valid block expands successfully to its translation. -/
theorem claimC9_witness :
    expandNetworkInterfaceIPConfigurations [sampleIpInput]
      = Except.ok ([sampleIpInput].map expandOneIPConfiguration) :=
  (claimC9_expandIPConfigurations [sampleIpInput]).2 (by decide)

/-- C8: the association import-ID validator splits on the pipe with no
length check — for an ID without a pipe the split has exactly one part, so
index 1 is out of range and the access panics as soon as it is reached
(i.e. whenever the first part parses); with at least one pipe the access
never panics.  The Read and Delete handlers instead check that the split
has exactly two parts and return an error otherwise. -/
theorem claimC8_importerUnsafeSplit :
    (∀ (env : Env) (idStr : String), '|' ∉ idStr.data →
      (goSplit idStr '|').length = 1
      ∧ ¬ 1 < (goSplit idStr '|').length
      ∧ (∀ r, env.parseNicIpConfigurationID ((goSplit idStr '|').getD 0 "") = Except.ok r →
          associationImporterValidate env idStr = Except.error CrudError.panicIndexOutOfRange))
    ∧ (∀ (env : Env) (idStr : String), '|' ∈ idStr.data →
        associationImporterValidate env idStr ≠ Except.error CrudError.panicIndexOutOfRange)
    ∧ (∀ (env : Env) (idStr : String), (goSplit idStr '|').length ≠ 2 →
        loadBalancerBackendAddressPoolAssociationRead env idStr
          = (Except.error CrudError.malformedAssociationId, [])
        ∧ loadBalancerBackendAddressPoolAssociationDelete env idStr
          = (Except.error CrudError.malformedAssociationId, [])) := by
  refine ⟨?_, ?_, ?_⟩
  · intro env idStr hno
    have hsplit : goSplit idStr '|' = [idStr.data.asString] :=
      goSplit_of_not_contains idStr '|' hno
    have hlen1 : (goSplit idStr '|').length = 1 := by rw [hsplit]; rfl
    refine ⟨hlen1, by omega, ?_⟩
    intro r hr
    simp only [associationImporterValidate]
    rw [hr]
    dsimp only
    rw [dif_neg (by omega)]
  · intro env idStr hyes
    have hlen := goSplit_length_ge_two_of_contains idStr '|' hyes
    simp only [associationImporterValidate]
    cases hp : env.parseNicIpConfigurationID ((goSplit idStr '|').getD 0 "") with
    | error e => simp
    | ok r =>
      dsimp only
      rw [dif_pos (show 1 < (goSplit idStr '|').length by omega)]
      cases env.parseLbBackendPoolID ((goSplit idStr '|').get
          ⟨1, show 1 < (goSplit idStr '|').length by omega⟩) with
      | error e => simp
      | ok u => simp
  · intro env idStr hlen
    constructor
    · simp only [loadBalancerBackendAddressPoolAssociationRead]
      rw [if_pos hlen]
    · simp only [loadBalancerBackendAddressPoolAssociationDelete]
      rw [if_pos hlen]

/-- C8 witness: on the pipe-free ID abc, whose first part the sample
environment parses successfully, the importer hits the out-of-range access,
while the Read and Delete handlers return the malformed-ID error. -/
theorem claimC8_witness :
    ('|' ∉ "abc".data
      ∧ associationImporterValidate sampleEnv "abc"
          = Except.error CrudError.panicIndexOutOfRange)
    ∧ ('|' ∈ "a|b".data
      ∧ associationImporterValidate sampleEnv "a|b" ≠ Except.error CrudError.panicIndexOutOfRange)
    ∧ loadBalancerBackendAddressPoolAssociationRead sampleEnv "abc"
        = (Except.error CrudError.malformedAssociationId, [])
    ∧ loadBalancerBackendAddressPoolAssociationDelete sampleEnv "abc"
        = (Except.error CrudError.malformedAssociationId, []) := by
  have h1 := (claimC8_importerUnsafeSplit.1 sampleEnv "abc" (by decide)).2.2
    { ResourceGroup := "rg1", NetworkInterfaceName := "nic1", IpConfigurationName := "cfg1" }
    rfl
  have h2 := claimC8_importerUnsafeSplit.2.1 sampleEnv "a|b" (by decide)
  have h3 := claimC8_importerUnsafeSplit.2.2 sampleEnv "abc" (by decide)
  exact ⟨⟨by decide, h1⟩, ⟨by decide, h2⟩, h3.1, h3.2⟩

/-- C1 counterexample: an interface satisfying all of the claim's
hypotheses (non-nil properties and IP-configuration list, named
configuration cfg1 present with non-nil properties) on which
`loadBalancerBackendAddressPoolAssociationCreateUpdate` does NOT write the
described merge: the requested pool poolB is already present, so the
handler aborts with the import-as-exists error and writes nothing. -/
theorem claimC1_counterexample :
    (sampleInterfaceWithB.props = some sampleNicPropsWithB
      ∧ sampleNicPropsWithB.IPConfigurations = some [sampleConfigWithB, sampleOtherConfig]
      ∧ FindNetworkInterfaceIPConfiguration sampleNicPropsWithB.IPConfigurations "cfg1"
          = some sampleConfigWithB
      ∧ sampleConfigWithB.props = some sampleIPPropsWithB)
    ∧ assocCreateUpdateCore "nicid1" "cfg1" "poolB" sampleInterfaceWithB
        = Except.error (CrudError.importAsExists assocImportLabel
            "nicid1/ipConfigurations/cfg1|poolB") :=
  ⟨⟨rfl, rfl, by decide, rfl⟩, by rfl⟩

/-- C1 (amended): when additionally the requested backend address pool ID is
not already present among the named configuration's pools, the
create/update handler produces exactly the read interface with the named
configuration's pool list replaced by `createdPoolList` (existing non-nil
pools in order, requested pool appended last) and with every configuration
bearing a different name, and every other field of the interface,
unchanged. -/
theorem claimC1_createMergesOnlyNamedConfig
    (networkInterfaceId ipConfigurationName backendAddressPoolId : String)
    (iface : Interface) (props : InterfacePropertiesFormat)
    (cfgs : List InterfaceIPConfiguration) (c : InterfaceIPConfiguration)
    (p : InterfaceIPConfigurationPropertiesFormat)
    (hprops : iface.props = some props)
    (hcfgs : props.IPConfigurations = some cfgs)
    (hfind : FindNetworkInterfaceIPConfiguration props.IPConfigurations ipConfigurationName
      = some c)
    (hp : c.props = some p)
    (hnew : ∀ pl ∈ p.LoadBalancerBackendAddressPools.getD [],
      pl.ID ≠ some backendAddressPoolId) :
    assocCreateUpdateCore networkInterfaceId ipConfigurationName backendAddressPoolId iface
      = Except.ok
          (withConfigPools iface props cfgs c p
            (createdPoolList p backendAddressPoolId)) := by
  have hfind2 := hfind
  rw [hcfgs] at hfind2
  simp only [assocCreateUpdateCore, hprops, hcfgs, hfind2, hp]
  rw [matchPools_eq_getD, collectExistingPools_ok_of_not_mem _ _ _ hnew]
  simp only [updateNetworkInterfaceIPConfiguration, withConfigPools, createdPoolList]

/-- C1 witness: the amended theorem evaluated on the sample interface and a
fresh pool ID. -/
theorem claimC1_witness :
    (∀ pl ∈ sampleIPProps.LoadBalancerBackendAddressPools.getD [],
      pl.ID ≠ some "poolNew")
    ∧ assocCreateUpdateCore "nicid1" "cfg1" "poolNew" sampleInterface
        = Except.ok
            (withConfigPools sampleInterface sampleNicProps
              [sampleConfig, sampleOtherConfig] sampleConfig sampleIPProps
              (createdPoolList sampleIPProps "poolNew")) :=
  ⟨by decide,
    claimC1_createMergesOnlyNamedConfig "nicid1" "cfg1" "poolNew" sampleInterface
      sampleNicProps [sampleConfig, sampleOtherConfig] sampleConfig sampleIPProps
      rfl rfl (by decide) rfl (by decide)⟩

/-- C3: the Delete handler produces exactly the read interface with the
named configuration's pool list replaced by `deletedPoolList` (previous
pools minus the association's pool and minus nil-ID entries, in order),
with every configuration bearing a different name unchanged. -/
theorem claimC3_deleteRemovesOnlyRequestedPool
    (ipConfigurationName backendAddressPoolId : String)
    (iface : Interface) (props : InterfacePropertiesFormat)
    (cfgs : List InterfaceIPConfiguration) (config : InterfaceIPConfiguration)
    (p : InterfaceIPConfigurationPropertiesFormat)
    (hprops : iface.props = some props)
    (hcfgs : props.IPConfigurations = some cfgs)
    (hfind : FindNetworkInterfaceIPConfiguration props.IPConfigurations ipConfigurationName
      = some config)
    (hp : config.props = some p) :
    assocDeleteCore ipConfigurationName backendAddressPoolId iface
      = Except.ok
          (withConfigPools iface props cfgs config p
            (deletedPoolList p backendAddressPoolId)) := by
  have hfind2 := hfind
  rw [hcfgs] at hfind2
  simp only [assocDeleteCore, hprops, hcfgs, hfind2, hp]
  simp only [updateNetworkInterfaceIPConfiguration, withConfigPools, deletedPoolList]
  cases hpools : p.LoadBalancerBackendAddressPools with
  | none => rfl
  | some l => rfl

/-- C3 witness: deleting poolOther from the sample interface keeps cfg2
untouched and leaves cfg1 with an empty pool list (the nil-ID entry is
dropped as well). -/
theorem claimC3_witness :
    (FindNetworkInterfaceIPConfiguration sampleNicProps.IPConfigurations "cfg1"
        = some sampleConfig)
    ∧ assocDeleteCore "cfg1" "poolOther" sampleInterface
        = Except.ok
            (withConfigPools sampleInterface sampleNicProps
              [sampleConfig, sampleOtherConfig] sampleConfig sampleIPProps
              (deletedPoolList sampleIPProps "poolOther")) :=
  ⟨by decide,
    claimC3_deleteRemovesOnlyRequestedPool "cfg1" "poolOther" sampleInterface
      sampleNicProps [sampleConfig, sampleOtherConfig] sampleConfig sampleIPProps
      rfl rfl (by decide) rfl⟩

/-- C4: both import guards.  When the requested backend address pool ID is
already present (with a non-nil ID) in the named IP configuration, the
association create/update handler returns the import-as-exists error built
from the composite resource ID and never calls `CreateOrUpdate`; and for a
new resource, when the existence-check `Get` finds the interface,
`networkInterfaceCreate` returns the import-as-exists error built from the
interface ID and never calls `CreateOrUpdate`. -/
theorem claimC4_importAsExistsGuards :
    (∀ (env : Env) (nid ipn bid : String) (id : NetworkInterfaceId) (iface : Interface)
        (props : InterfacePropertiesFormat) (cfgs : List InterfaceIPConfiguration)
        (c : InterfaceIPConfiguration) (p : InterfaceIPConfigurationPropertiesFormat),
      env.parseNetworkInterfaceID nid = Except.ok id →
      env.get id.ResourceGroup id.Name = GetResult.ok iface →
      iface.props = some props →
      props.IPConfigurations = some cfgs →
      FindNetworkInterfaceIPConfiguration props.IPConfigurations ipn = some c →
      c.props = some p →
      containsPoolId (p.LoadBalancerBackendAddressPools.getD []) bid = true →
      (loadBalancerBackendAddressPoolAssociationCreateUpdate env nid ipn bid).1
          = Except.error (CrudError.importAsExists assocImportLabel
              (nid ++ "/ipConfigurations/" ++ ipn ++ "|" ++ bid))
        ∧ RemoteEvent.writeInterface ∉
            (loadBalancerBackendAddressPoolAssociationCreateUpdate env nid ipn bid).2)
    ∧ (∀ (env : Env) (subId : String) (plan : CreatePlan) (iface : Interface),
        env.get plan.resourceGroupName plan.name = GetResult.ok iface →
        (networkInterfaceCreate env subId plan true).1
            = Except.error (CrudError.importAsExists nicImportLabel
                (networkInterfaceIdString subId plan.resourceGroupName plan.name))
          ∧ RemoteEvent.writeInterface ∉ (networkInterfaceCreate env subId plan true).2) := by
  constructor
  · intro env nid ipn bid id iface props cfgs c p hparse hget hprops hcfgs hfind hp hcont
    have hfind2 := hfind
    rw [hcfgs] at hfind2
    have hcore : assocCreateUpdateCore nid ipn bid iface
        = Except.error (CrudError.importAsExists assocImportLabel
            (nid ++ "/ipConfigurations/" ++ ipn ++ "|" ++ bid)) := by
      simp only [assocCreateUpdateCore, hprops, hcfgs, hfind2, hp]
      rw [matchPools_eq_getD, collectExistingPools_error_of_contains _ _ _ hcont]
    simp only [loadBalancerBackendAddressPoolAssociationCreateUpdate, hparse, hget, hcore]
    constructor
    · trivial
    · simp
  · intro env subId plan iface hget
    simp only [networkInterfaceCreate, hget, if_true]
    constructor
    · trivial
    · simp

/-- C4 witness: both guards evaluated in the sample environment, whose
remote interface already carries poolB on cfg1. -/
theorem claimC4_witness :
    ((loadBalancerBackendAddressPoolAssociationCreateUpdate sampleEnv "nicid1" "cfg1"
        "poolB").1
      = Except.error (CrudError.importAsExists assocImportLabel
          ("nicid1" ++ "/ipConfigurations/" ++ "cfg1" ++ "|" ++ "poolB"))
      ∧ RemoteEvent.writeInterface ∉
          (loadBalancerBackendAddressPoolAssociationCreateUpdate sampleEnv "nicid1" "cfg1"
            "poolB").2)
    ∧ ((networkInterfaceCreate sampleEnv "sub1" samplePlanCreate true).1
        = Except.error (CrudError.importAsExists nicImportLabel
            (networkInterfaceIdString "sub1" samplePlanCreate.resourceGroupName
              samplePlanCreate.name))
      ∧ RemoteEvent.writeInterface ∉
          (networkInterfaceCreate sampleEnv "sub1" samplePlanCreate true).2) :=
  ⟨claimC4_importAsExistsGuards.1 sampleEnv "nicid1" "cfg1" "poolB"
      { ResourceGroup := "rg1", Name := "nicid1" } sampleInterfaceWithB sampleNicPropsWithB
      [sampleConfigWithB, sampleOtherConfig] sampleConfigWithB sampleIPPropsWithB
      rfl rfl rfl rfl (by decide) rfl (by decide),
    claimC4_importAsExistsGuards.2 sampleEnv "sub1" samplePlanCreate sampleInterfaceWithB rfl⟩

/-- C6: whenever `networkInterfaceUpdate` successfully builds its payload,
every field the plan reports as unchanged (dns_servers,
enable_ip_forwarding, ip_configuration, tags) carries exactly the value
read from the existing remote interface, and the existing
NetworkSecurityGroup is always carried over regardless of the plan. -/
theorem claimC6_updatePreservesUnchangedFields (env : Env) (idName : String)
    (plan : UpdatePlan) (existing : Interface) (exProps : InterfacePropertiesFormat)
    (upd : Interface) (updProps : InterfacePropertiesFormat)
    (hex : existing.props = some exProps)
    (hupd : networkInterfaceUpdateCore env idName plan existing = Except.ok upd)
    (hupdProps : upd.props = some updProps) :
    (plan.hasChangeDnsServers = false →
      ∃ exDns, exProps.DNSSettings = some exDns
        ∧ updProps.DNSSettings = some { DNSServers := exDns.DNSServers })
    ∧ (plan.hasChangeEnableIpForwarding = false →
        updProps.EnableIPForwarding = exProps.EnableIPForwarding)
    ∧ (plan.hasChangeIpConfiguration = false →
        updProps.IPConfigurations = exProps.IPConfigurations)
    ∧ (plan.hasChangeTags = false → upd.Tags = existing.Tags)
    ∧ updProps.NetworkSecurityGroup = exProps.NetworkSecurityGroup := by
  cases h1 : plan.hasChangeDnsServers <;> cases h3 : plan.hasChangeIpConfiguration <;>
    simp only [networkInterfaceUpdateCore, hex, h1, h3, Bool.false_eq_true, if_false,
      if_true] at hupd
  case false.false =>
    cases hdns : exProps.DNSSettings with
    | none => rw [hdns] at hupd; exact absurd hupd (by simp)
    | some exDns =>
      rw [hdns] at hupd
      simp only [Except.ok.injEq] at hupd
      subst hupd
      simp only [] at hupdProps
      cases hupdProps
      refine ⟨?_, ?_, ?_, ?_, rfl⟩
      · intro _; exact ⟨exDns, rfl, rfl⟩
      · intro h2; simp [h2]
      · intro _; rfl
      · intro h4; simp [h4]
  case false.true =>
    cases hdns : exProps.DNSSettings with
    | none => rw [hdns] at hupd; exact absurd hupd (by simp)
    | some exDns =>
      rw [hdns] at hupd
      cases hexp : expandNetworkInterfaceIPConfigurations plan.ipConfiguration with
      | error e => rw [hexp] at hupd; exact absurd hupd (by simp)
      | ok ipConfigs =>
        rw [hexp] at hupd
        dsimp only at hupd
        cases hdet : env.determineResourcesToLock (some ipConfigs) with
        | error e => rw [hdet] at hupd; exact absurd hupd (by simp)
        | ok u =>
          rw [hdet] at hupd
          simp only [Except.ok.injEq] at hupd
          subst hupd
          simp only [] at hupdProps
          cases hupdProps
          refine ⟨?_, ?_, ?_, ?_, rfl⟩
          · intro _; exact ⟨exDns, rfl, rfl⟩
          · intro h2; simp [h2]
          · intro hc; exact absurd hc (by decide)
          · intro h4; simp [h4]
  case true.false =>
    simp only [Except.ok.injEq] at hupd
    subst hupd
    simp only [] at hupdProps
    cases hupdProps
    refine ⟨?_, ?_, ?_, ?_, rfl⟩
    · intro hc; exact absurd hc (by decide)
    · intro h2; simp [h2]
    · intro _; rfl
    · intro h4; simp [h4]
  case true.true =>
    cases hexp : expandNetworkInterfaceIPConfigurations plan.ipConfiguration with
    | error e => rw [hexp] at hupd; exact absurd hupd (by simp)
    | ok ipConfigs =>
      rw [hexp] at hupd
      dsimp only at hupd
      cases hdet : env.determineResourcesToLock (some ipConfigs) with
      | error e => rw [hdet] at hupd; exact absurd hupd (by simp)
      | ok u =>
        rw [hdet] at hupd
        simp only [Except.ok.injEq] at hupd
        subst hupd
        simp only [] at hupdProps
        cases hupdProps
        refine ⟨?_, ?_, ?_, ?_, rfl⟩
        · intro hc; exact absurd hc (by decide)
        · intro h2; simp [h2]
        · intro hc; exact absurd hc (by decide)
        · intro h4; simp [h4]

/-- C6 witness: the no-change plan evaluated against the sample interface
reproduces every remote-owned field. -/
theorem claimC6_witness :
    (samplePlanNoChange.hasChangeDnsServers = false →
      ∃ exDns, sampleNicProps.DNSSettings = some exDns
        ∧ (sampleUpdatedProps).DNSSettings = some { DNSServers := exDns.DNSServers })
    ∧ (samplePlanNoChange.hasChangeEnableIpForwarding = false →
        sampleUpdatedProps.EnableIPForwarding = sampleNicProps.EnableIPForwarding)
    ∧ (samplePlanNoChange.hasChangeIpConfiguration = false →
        sampleUpdatedProps.IPConfigurations = sampleNicProps.IPConfigurations)
    ∧ (samplePlanNoChange.hasChangeTags = false →
        sampleUpdated.Tags = sampleInterface.Tags)
    ∧ sampleUpdatedProps.NetworkSecurityGroup = sampleNicProps.NetworkSecurityGroup :=
  claimC6_updatePreservesUnchangedFields sampleEnv "nic1" samplePlanNoChange
    sampleInterface sampleNicProps sampleUpdated sampleUpdatedProps rfl (by rfl) rfl

/-- C7: under the per-name mutual exclusion of `locks.ByName`, any complete
interleaving of two association-create critical sections against the same
network interface loses neither update — when both threads have finished,
both backend address pool IDs are present in the remote pool list. -/
theorem claimC7_lockSerializesCreates (pool : Bool → String)
    (r0 : List BackendAddressPool) (st : SysState)
    (h : Reach pool (initState r0) st)
    (h1 : st.pc true = TPC.finished) (h2 : st.pc false = TPC.finished) :
    containsPoolId st.remote (pool true) = true
      ∧ containsPoolId st.remote (pool false) = true := by
  have hinv := machineInv_reach pool r0 h
  exact ⟨hinv.2.2 true (Or.inr h1), hinv.2.2 false (Or.inr h2)⟩

/-- C7 witness: a concrete complete interleaving (thread true runs its whole
critical section, then thread false) from the empty remote list ends with
both poolA and poolB present. -/
theorem claimC7_witness :
    containsPoolId
        (applyAssociationCreate (applyAssociationCreate [] (demoPool true)) (demoPool false))
        (demoPool true) = true
      ∧ containsPoolId
          (applyAssociationCreate (applyAssociationCreate [] (demoPool true))
            (demoPool false))
          (demoPool false) = true := by
  have r1 := Reach.step
    (Reach.refl : Reach demoPool (initState []) (initState []))
    (LockStep.acquire true (initState []) rfl rfl)
  have r2 := Reach.step r1 (LockStep.readRemote true _ rfl rfl)
  have r3 := Reach.step r2 (LockStep.writeRemote true _ [] rfl rfl)
  have r4 := Reach.step r3 (LockStep.release true _ rfl rfl)
  have r5 := Reach.step r4 (LockStep.acquire false _ rfl rfl)
  have r6 := Reach.step r5 (LockStep.readRemote false _ rfl rfl)
  have r7 := Reach.step r6
    (LockStep.writeRemote false _ (applyAssociationCreate [] (demoPool true)) rfl rfl)
  have r8 := Reach.step r7 (LockStep.release false _ rfl rfl)
  exact claimC7_lockSerializesCreates demoPool [] _ r8 rfl rfl

/-- Every event of the create/update success tail (write followed by the
Read handler's trace) is a non-lock event. -/
theorem readWrite_tail_nonLock (env : Env) (s : String) :
    ∀ e ∈ RemoteEvent.readInterface :: RemoteEvent.writeInterface ::
        (loadBalancerBackendAddressPoolAssociationRead env s).2,
      nonLockEvent e = true := by
  intro e he
  rcases List.mem_cons.mp he with rfl | he2
  · rfl
  · rcases List.mem_cons.mp he2 with rfl | he3
    · rfl
    · exact assocRead_trace_nonLock env s e he3

/-- Every event of the create success tail of `networkInterfaceCreate`
(details lock, write, Read handler trace, details unlock) is a non-lock
event. -/
theorem createTail_nonLock (env : Env) (s : String) :
    ∀ e ∈ RemoteEvent.lockDetails :: RemoteEvent.writeInterface ::
        (networkInterfaceRead env s).2 ++ [RemoteEvent.unlockDetails],
      nonLockEvent e = true := by
  intro e he
  rcases List.mem_cons.mp he with rfl | he2
  · rfl
  · rcases List.mem_cons.mp he2 with rfl | he3
    · rfl
    · rcases List.mem_append.mp he3 with htail | hlast
      · exact networkInterfaceRead_trace_nonLock env s e htail
      · rcases List.mem_singleton.mp hlast with rfl
        rfl

/-- C2 counterexample: `networkInterfaceCreate` performs its existence-check
`Get` (source line 182) before acquiring the per-name lock (source line
202), so its full trace violates the lock discipline for a new resource:
a remote read occurs outside the lock. -/
theorem claimC2_counterexample :
    wellLocked samplePlanCreate.name networkInterfaceResourceName
      (networkInterfaceCreate sampleEnvNotFound "sub1" samplePlanCreate true).2 = false := by
  decide

/-- C2 (amended): for every environment and all inputs, the association
create/update and delete handlers and the network-interface update and
delete handlers keep every remote read, write and delete inside the
per-name lock, acquired at most once and released exactly as often as
acquired; `networkInterfaceCreate` satisfies the same discipline for its
whole trace except the initial existence-check read, which precedes the
lock acquisition when the resource is new. -/
theorem claimC2_lockDiscipline (env : Env) :
    (∀ nid ipn bid, wellLocked (parsedNicName env nid) networkInterfaceResourceName
        (loadBalancerBackendAddressPoolAssociationCreateUpdate env nid ipn bid).2 = true)
    ∧ (∀ idStr, wellLocked (parsedAssocDeleteNicName env idStr) networkInterfaceResourceName
        (loadBalancerBackendAddressPoolAssociationDelete env idStr).2 = true)
    ∧ (∀ idStr plan, wellLocked (parsedNicName env idStr) networkInterfaceResourceName
        (networkInterfaceUpdate env idStr plan).2 = true)
    ∧ (∀ idStr, wellLocked (parsedNicName env idStr) networkInterfaceResourceName
        (networkInterfaceDelete env idStr).2 = true)
    ∧ (∀ subId plan isNewResource, wellLocked plan.name networkInterfaceResourceName
        ((networkInterfaceCreate env subId plan isNewResource).2.drop
          (if isNewResource then 1 else 0)) = true) := by
  refine ⟨?_, ?_, ?_, ?_, ?_⟩
  · intro nid ipn bid
    cases hp : env.parseNetworkInterfaceID nid with
    | error e =>
      simp only [loadBalancerBackendAddressPoolAssociationCreateUpdate, hp, parsedNicName]
      exact wellLocked_nil _ _
    | ok id =>
      simp only [loadBalancerBackendAddressPoolAssociationCreateUpdate, hp, parsedNicName]
      apply wellLocked_sandwich
      intro e he
      repeat' split at he
      all_goals first
        | exact readWrite_tail_nonLock env _ e he
        | (cases e <;> simp_all [nonLockEvent])
  · intro idStr
    simp only [loadBalancerBackendAddressPoolAssociationDelete]
    split
    · exact wellLocked_nil _ _
    · split
      · exact wellLocked_nil _ _
      · next nicID heq =>
        simp only [parsedAssocDeleteNicName, heq]
        apply wellLocked_sandwich
        intro e he
        repeat' split at he
        all_goals (cases e <;> simp_all [nonLockEvent])
  · intro idStr plan
    cases hp : env.parseNetworkInterfaceID idStr with
    | error e =>
      simp only [networkInterfaceUpdate, hp, parsedNicName]
      exact wellLocked_nil _ _
    | ok id =>
      simp only [networkInterfaceUpdate, hp, parsedNicName]
      apply wellLocked_sandwich
      intro e he
      repeat' split at he
      all_goals (cases e <;> simp_all [nonLockEvent])
  · intro idStr
    cases hp : env.parseNetworkInterfaceID idStr with
    | error e =>
      simp only [networkInterfaceDelete, hp, parsedNicName]
      exact wellLocked_nil _ _
    | ok id =>
      simp only [networkInterfaceDelete, hp, parsedNicName]
      apply wellLocked_sandwich
      intro e he
      repeat' split at he
      all_goals (cases e <;> simp_all [nonLockEvent])
  · intro subId plan isNewResource
    cases isNewResource with
    | false =>
      simp only [networkInterfaceCreate, if_false, Bool.false_eq_true, List.drop_zero,
        List.nil_append]
      apply wellLocked_sandwich
      intro e he
      repeat' split at he
      all_goals first
        | exact createTail_nonLock env _ e he
        | (cases e <;> simp_all [nonLockEvent])
    | true =>
      simp only [networkInterfaceCreate, if_true]
      cases hg : env.get plan.resourceGroupName plan.name with
      | err =>
        simp only [hg]
        exact wellLocked_nil _ _
      | ok iface =>
        simp only [hg]
        exact wellLocked_nil _ _
      | notFound =>
        simp only [hg, List.singleton_append, List.drop_succ_cons, List.drop_zero]
        apply wellLocked_sandwich
        intro e he
        repeat' split at he
        all_goals first
          | exact createTail_nonLock env _ e he
          | (cases e <;> simp_all [nonLockEvent])

end AzureStackNetwork
